import Mathlib

/-!
Verification development for the finbizinfo financial-statement extraction
and ratio-computation engine.  The definitions below are shallow embeddings
of the Python source (`be/app.py`, `be/financial_analyzer.py`,
`be/ratio_smoke_test.py`, `be/mistral.py`): Python floats are modelled as
exact rationals, strings as `List Char` / `String`, fallible operations as
`Option`, and an uncaught Python exception as `Except.error`.  The concrete
regular expressions used by the source are small enough that their exact
matching semantics (leftmost match, greedy sub-expressions with
backtracking) are implemented directly.  Number parsing is split into a
digit-level stage (`PyFloat`, plain `Bool`/`ℕ` data) and a valuation into
`ℚ`, so that the digit-level stage is kernel-computable while the rational
value stays exact.
-/

/-- Python whitespace for `str.strip()` and the regex class `\s`, restricted
to the ASCII whitespace characters (all inputs in the claims are ASCII;
the source normalizes the one non-ASCII space, U+00A0, to a plain space
before matching). -/
def pyWs (c : Char) : Bool :=
  c = ' ' || c = '\t' || c = '\n' || c = '\r' || c = Char.ofNat 11 || c = Char.ofNat 12

/-- ASCII lower-casing of one character, as `str.lower()` acts on the ASCII
range (all strings handled by the claims are ASCII apart from currency and
dash symbols, which `lower()` leaves unchanged). -/
def lowerChar (c : Char) : Char :=
  if 'A' ≤ c ∧ c ≤ 'Z' then Char.ofNat (c.toNat + 32) else c

/-- Python `s.lower()` on a character list. -/
def lowerChars (cs : List Char) : List Char := cs.map lowerChar

/-- Python `s.strip(chars)`: drop characters satisfying `p` from both ends. -/
def stripChars (p : Char → Bool) (cs : List Char) : List Char :=
  ((cs.dropWhile p).reverse.dropWhile p).reverse

/-- Numeric value of a list of ASCII digits (most significant first). -/
def digitsVal (ds : List Char) : ℕ :=
  ds.foldl (fun n c => 10 * n + (c.toNat - 48)) 0

/-- The digit-level content of a successful Python `float(s)` conversion:
sign, integer-part value, fractional-part value and fractional length.
The rational value it denotes is `PyFloat.val`. -/
structure PyFloat where
  neg : Bool
  ip : ℕ
  fp : ℕ
  fl : ℕ
deriving DecidableEq, Repr

/-- The exact rational value of a parsed float. -/
def PyFloat.val (x : PyFloat) : ℚ :=
  (if x.neg then -1 else 1) * ((x.ip : ℚ) + (x.fp : ℚ) / (10 : ℚ) ^ x.fl)

/-- Python's builtin `float(s)` on the strings that reach it in this code
base: after the source's cleaning substitutions the argument contains no
exponent letter, sign other than a leading minus, underscore or whitespace,
so `float` succeeds exactly on `[-] digits [. digits]` shapes with at least
one digit (`"12."` and `".5"` are accepted, `"-"`, `"."`, `""`, `"1.2.3"`
are not).  Failure (a Python `ValueError`) is `none`. -/
def pyFloatP (cs : List Char) : Option PyFloat :=
  let negBody : Bool × List Char :=
    match cs with
    | '-' :: rest => (true, rest)
    | _ => (false, cs)
  let body := negBody.2
  let intp := body.takeWhile Char.isDigit
  let rest1 := body.drop intp.length
  match rest1 with
  | [] => if intp = [] then none else some ⟨negBody.1, digitsVal intp, 0, 0⟩
  | '.' :: rest2 =>
    let frac := rest2.takeWhile Char.isDigit
    if rest2.drop frac.length ≠ [] then none
    else if intp = [] ∧ frac = [] then none
    else some ⟨negBody.1, digitsVal intp, digitsVal frac, frac.length⟩
  | _ => none

/-- `float(s)` as an exact rational. -/
def pyFloat (cs : List Char) : Option ℚ := (pyFloatP cs).map PyFloat.val

/-- The cleaned-token pipeline of `be/app.py`'s module-level `parse_number`:
after the early returns the source strips `()` from both ends, removes
`[₹$,]`, then removes every character outside `[0-9.\-]`. -/
def parse_number_cleaned (s : List Char) : List Char :=
  let s1 := stripChars (fun c => c = '(' || c = ')') s
  let s2 := s1.filter (fun c => !(c = '₹' || c = '$' || c = ','))
  s2.filter (fun c => c.isDigit || c = '.' || c = '-')

/-- Digit-level stage of `parse_number` from `be/app.py` (module level), on
a string argument: strip and lower-case, return `none` for the
empty/dash/na/nil tokens, detect the accounting-negative parentheses,
clean, and convert with `float`; the parenthesis flag is returned with the
float so the valuation can negate. -/
def parse_numberP (val : String) : Option (Bool × PyFloat) :=
  let s := lowerChars (stripChars pyWs val.data)
  if s = [] ∨ s = ['-'] ∨ s = ['—'] ∨ s = ['n', 'a'] ∨ s = ['n', 'i', 'l'] then none
  else
    let neg : Bool := s.head? = some '(' && s.getLast? = some ')'
    let cleaned := parse_number_cleaned s
    if cleaned = [] ∨ cleaned = ['.'] then none
    else
      match pyFloatP cleaned with
      | none => none
      | some x => some (neg, x)

/-- `parse_number` from `be/app.py`: the exact rational it returns, `none`
for every failure (the source catches all conversion errors). -/
def parse_number (val : String) : Option ℚ :=
  (parse_numberP val).map (fun p => if p.1 then -p.2.val else p.2.val)

/-- Matcher for the suffix alternation `(lakhs?|lakh|crore|crores|cr)?` of
`be/mistral.py`'s `_parse_number_token`, applied at the current position of
an already lower-cased string; alternatives are tried left to right and
`lakhs?` takes the optional `s` greedily, so `"crores"` yields the match
`"crore"`. -/
def suffixWord (cs : List Char) : Option (List Char) :=
  if List.isPrefixOf ['l', 'a', 'k', 'h'] cs then
    some (if (cs.drop 4).head? = some 's' then ['l', 'a', 'k', 'h', 's'] else ['l', 'a', 'k', 'h'])
  else if List.isPrefixOf ['c', 'r', 'o', 'r', 'e'] cs then some ['c', 'r', 'o', 'r', 'e']
  else if List.isPrefixOf ['c', 'r'] cs then some ['c', 'r']
  else none

/-- Character class `[0-9,\.]` of `_parse_number_token`'s mantissa group. -/
def numClass (c : Char) : Bool := c.isDigit || c = ',' || c = '.'

/-- Leftmost match of `([0-9,\.]+)\s*(lakhs?|lakh|crore|crores|cr)?` as
`re.search` finds it: the first position holding a mantissa-class character
starts the (greedy) mantissa, whitespace is skipped, and the unit word is
matched right there if present. -/
def regexNumSuffix : List Char → Option (List Char × Option (List Char))
  | [] => none
  | c :: rest =>
    if numClass c then
      let g1 := (c :: rest).takeWhile numClass
      let after := (c :: rest).drop g1.length
      let after2 := after.drop (after.takeWhile pyWs).length
      some (g1, suffixWord after2)
    else regexNumSuffix rest

/-- Substring test (`needle in hay` on Python strings). -/
def hasSub (needle : List Char) : List Char → Bool
  | [] => List.isPrefixOf needle []
  | c :: rest => List.isPrefixOf needle (c :: rest) || hasSub needle rest

/-- The scale multiplier applied by `_parse_number_token` to a matched unit
word: `"lakh" in mult` scales by 1e5, else `"crore" in mult or mult == "cr"`
scales by 1e7. -/
def multScale (mult : Option (List Char)) : ℕ :=
  match mult with
  | none => 1
  | some m =>
    if hasSub ['l', 'a', 'k', 'h'] m then 100000
    else if hasSub ['c', 'r', 'o', 'r', 'e'] m || m = ['c', 'r'] then 10000000
    else 1

instance {α β : Type} [DecidableEq α] [DecidableEq β] : DecidableEq (Except α β) := fun x y =>
  match x, y with
  | .ok a, .ok b => if h : a = b then isTrue (by rw [h]) else isFalse (by simp [h])
  | .error a, .error b => if h : a = b then isTrue (by rw [h]) else isFalse (by simp [h])
  | .ok _, .error _ => isFalse (by simp)
  | .error _, .ok _ => isFalse (by simp)

/-- Digit-level stage of `_parse_number_token` from `be/mistral.py`.  The
mantissa branch calls Python's `float` outside any `try`, so a mantissa
that cleans to an unconvertible string (for example `","`) raises an
uncaught `ValueError`, modelled as `Except.error`; the fallback branch
catches its own failures and degrades to `none`.  A result carries the
parenthesis-negative flag, the parsed float and the unit-word scale. -/
def parseNumberTokenP (tok : String) : Except String (Option (Bool × PyFloat × ℕ)) :=
  if tok.data = [] then .ok none
  else
    let s := lowerChars (stripChars pyWs tok.data)
    let neg : Bool := s.head? = some '(' && s.getLast? = some ')'
    let s1 := stripChars (fun c => c = '(' || c = ')') s
    match regexNumSuffix s1 with
    | some (g1, mult) =>
      match pyFloatP (g1.filter (fun c => !(c = ','))) with
      | none => .error "ValueError"
      | some x => .ok (some (neg, x, multScale mult))
    | none =>
      let cleaned := s1.filter (fun c => c.isDigit || c = '.' || c = '-')
      if cleaned = [] then .ok none
      else
        match pyFloatP cleaned with
        | none => .ok none
        | some x => .ok (some (neg, x, 1))

/-- `_parse_number_token` from `be/mistral.py`: the exact rational value (or
`none`) it returns, or the uncaught exception. -/
def parseNumberToken (tok : String) : Except String (Option ℚ) :=
  (parseNumberTokenP tok).map
    (fun r => r.map (fun p => if p.1 then -(p.2.1.val * p.2.2) else p.2.1.val * p.2.2))

/-- `safe_div` as defined inside `calculate_financial_ratios_from_text`
(identically in `be/financial_analyzer.py` and `be/ratio_smoke_test.py`):
`None` when either operand is missing or the denominator is zero, the exact
quotient otherwise. -/
def safe_div (a b : Option ℚ) : Option ℚ :=
  match a, b with
  | none, _ => none
  | _, none => none
  | some x, some y => if y = 0 then none else some (x / y)

/-- Python `a or b` on an optional number and an optional number, as used in
`safe_div(nums.get('ebit') or nums.get('operating_income'), ...)`: `a` when
it is present and non-zero (truthy), `b` otherwise. -/
def orFalsy (a b : Option ℚ) : Option ℚ :=
  match a with
  | some q => if q = 0 then b else some q
  | none => b

/-- The regex class `[^\n\r\d\-\(\)]` standing before the captured group in
`_find_amount`'s first pattern. -/
def starChar (c : Char) : Bool :=
  !(c = '\n' || c = '\r' || c.isDigit || c = '-' || c = '(' || c = ')')

/-- The regex class `[\$₹Rs\.\s]` as matched case-insensitively (the first
loop of `_find_amount` compiles its pattern with `re.IGNORECASE`, so the
letters also match in the other case). -/
def moneyCharCI (c : Char) : Bool :=
  c = '$' || c = '₹' || c = 'R' || c = 's' || c = 'r' || c = 'S' || c = '.' || pyWs c

/-- The regex class `[\$₹Rs\.\s]` matched case-sensitively (the second,
line-by-line loop of `_find_amount` compiles its pattern without flags). -/
def moneyCharCS (c : Char) : Bool :=
  c = '$' || c = '₹' || c = 'R' || c = 's' || c = '.' || pyWs c

/-- The regex class `[\d,]`. -/
def digitComma (c : Char) : Bool := c.isDigit || c = ','

/-- Greedy match of the captured group
`([\(\-]?[\$₹Rs\.\s]*[\d,]+(?:\.\d+)?[\)]?)` at the head of `cs`, returning
the matched text.  Each sub-expression is greedy and their character sets
are pairwise disjoint at the points where one hands over to the next, so
no internal backtracking can change the outcome: the match is the unique
maximal one, or fails when no `[\d,]+` part is found. -/
def matchGroup (money : Char → Bool) (cs : List Char) : Option (List Char) :=
  let sign : List Char :=
    match cs with
    | c :: _ => if c = '(' || c = '-' then [c] else []
    | [] => []
  let cs1 := cs.drop sign.length
  let mny := cs1.takeWhile money
  let cs2 := cs1.drop mny.length
  let dig := cs2.takeWhile digitComma
  let cs3 := cs2.drop dig.length
  if dig = [] then none
  else
    let frac : List Char :=
      match cs3 with
      | '.' :: rest2 =>
        let ds := rest2.takeWhile Char.isDigit
        if ds = [] then [] else '.' :: ds
      | _ => []
    let cs4 := cs3.drop frac.length
    let par : List Char :=
      match cs4 with
      | ')' :: _ => [')']
      | _ => []
    some (sign ++ mny ++ dig ++ frac ++ par)

/-- Backtracking of the greedy `[^\n\r\d\-\(\)]*` star standing between the
keyword and the captured group: the regex engine first consumes the maximal
star run and then retreats one character at a time, so the group is tried
at offsets `j, j-1, …, 0` of the text after the keyword and the first
success wins. -/
def tryStarBack (money : Char → Bool) (rest : List Char) : ℕ → Option (List Char)
  | 0 => matchGroup money rest
  | j + 1 =>
    match matchGroup money (rest.drop (j + 1)) with
    | some t => some t
    | none => tryStarBack money rest j

/-- Case-insensitive match of an already lower-cased keyword against a
position of the text (the behaviour of `re.escape(kw)` under
`re.IGNORECASE` on ASCII text). -/
def matchesLower : List Char → List Char → Bool
  | [], _ => true
  | _ :: _, [] => false
  | k :: ks, c :: cs => k = lowerChar c && matchesLower ks cs

/-- Leftmost-match search of `_find_amount`'s first pattern for one
keyword: scan start positions left to right; where the keyword matches,
run the star-plus-group tail, and on its failure fall through to the next
start position, exactly as `re.search` does. -/
def searchKw (kwl : List Char) : List Char → Option (List Char)
  | [] => none
  | c :: rest =>
    if matchesLower kwl (c :: rest) then
      let after := (c :: rest).drop kwl.length
      match tryStarBack moneyCharCI after (after.takeWhile starChar).length with
      | some t => some t
      | none => searchKw kwl rest
    else searchKw kwl rest

/-- The cleaning substitution `re.sub(r"[\$₹Rs\.\s]", '', raw)` applied to a
matched token (always case-sensitive: `re.sub` is called without flags). -/
def cleanToken (raw : List Char) : List Char :=
  raw.filter (fun c => !(c = '$' || c = '₹' || c = 'R' || c = 's' || c = '.' || pyWs c))

/-- The accounting-negative rewrite: a cleaned token that starts with `(`
and ends with `)` is replaced by `-` and its inner text. -/
def applyParenNeg (cs : List Char) : List Char :=
  if cs.head? = some '(' ∧ cs.getLast? = some ')' then '-' :: (cs.drop 1).dropLast
  else cs

/-- The comma removal `cleaned.replace(',', '')`. -/
def removeCommas (cs : List Char) : List Char := cs.filter (fun c => !(c = ','))

/-- The full token-to-number pipeline shared by both loops of
`_find_amount`: clean, rewrite parentheses, drop commas, convert. -/
def tokToFloatP (raw : List Char) : Option PyFloat :=
  pyFloatP (removeCommas (applyParenNeg (cleanToken raw)))

/-- The first loop of `_find_amount`: try each keyword's whole-text regex in
order; a match whose token fails `float` conversion falls through to the
next keyword (`except: continue`). -/
def findAmountLoop1 : List (List Char) → List Char → Option PyFloat
  | [], _ => none
  | kwl :: kws, cs =>
    match searchKw kwl cs with
    | some raw =>
      match tokToFloatP raw with
      | some v => some v
      | none => findAmountLoop1 kws cs
    | none => findAmountLoop1 kws cs

/-- Python `str.splitlines` (worker): split on `\n`, `\r` and `\r\n`,
without a trailing empty line for a trailing line break. -/
def splitLinesGo (acc : List Char) : List Char → List (List Char)
  | [] => [acc.reverse]
  | '\r' :: '\n' :: [] => [acc.reverse]
  | '\r' :: '\n' :: c :: tl => acc.reverse :: splitLinesGo [] (c :: tl)
  | '\n' :: [] => [acc.reverse]
  | '\n' :: c :: tl => acc.reverse :: splitLinesGo [] (c :: tl)
  | '\r' :: [] => [acc.reverse]
  | '\r' :: c :: tl => acc.reverse :: splitLinesGo [] (c :: tl)
  | c :: tl => splitLinesGo (c :: acc) tl

/-- Python `str.splitlines` on the line-break characters occurring in this
code base's inputs. -/
def pySplitlines (cs : List Char) : List (List Char) :=
  if cs = [] then [] else splitLinesGo [] cs

/-- Leftmost group-only search used by `_find_amount`'s second loop
(`re.search` of just the captured group, no flags): try the group at each
start position left to right. -/
def searchNum : List Char → Option (List Char)
  | [] => none
  | c :: rest =>
    match matchGroup moneyCharCS (c :: rest) with
    | some t => some t
    | none => searchNum rest

/-- One keyword's attempt on one line in `_find_amount`'s second loop: when
the lower-cased keyword occurs in the lower-cased line, try the first
number on the line, then the first number on the following line; every
failed conversion is swallowed (`except: pass`) and the attempt yields
nothing. -/
def lineKwTry (kwl line : List Char) (next : Option (List Char)) : Option PyFloat :=
  if hasSub kwl (lowerChars line) then
    match (searchNum line).bind tokToFloatP with
    | some v => some v
    | none =>
      match next with
      | some nl => (searchNum nl).bind tokToFloatP
      | none => none
  else none

/-- All keywords' attempts on one line, in keyword order. -/
def lineAllKws : List (List Char) → List Char → Option (List Char) → Option PyFloat
  | [], _, _ => none
  | kwl :: kws, line, next =>
    match lineKwTry kwl line next with
    | some v => some v
    | none => lineAllKws kws line next

/-- The second loop of `_find_amount`: lines are scanned in order; for each
line every keyword is tried before moving on. -/
def findAmountLoop2 (kws : List (List Char)) : List (List Char) → Option PyFloat
  | [] => none
  | line :: rest =>
    match lineAllKws kws line rest.head? with
    | some v => some v
    | none => findAmountLoop2 kws rest

/-- Digit-level result of `_find_amount` from `be/financial_analyzer.py`
(`FinancialAnalyzer._find_amount`; `be/ratio_smoke_test.py` carries a
character-for-character identical copy): normalize non-breaking spaces,
run the whole-text keyword patterns, then fall back to the line-by-line
scan. -/
def findAmountP (text : String) (keywords : List String) : Option PyFloat :=
  let cs := text.data.map (fun c => if c = Char.ofNat 160 then ' ' else c)
  let kwls := keywords.map (fun k => lowerChars k.data)
  match findAmountLoop1 kwls cs with
  | some v => some v
  | none => findAmountLoop2 kwls (pySplitlines cs)

/-- `_find_amount`: the exact rational value it returns, or `none`. -/
def findAmount (text : String) (keywords : List String) : Option ℚ :=
  (findAmountP text keywords).map PyFloat.val

/-- The extracted financial line items of `_extract_financial_numbers`
(`be/ratio_smoke_test.py`; `be/financial_analyzer.py` is identical up to a
duplicated cash keyword), one optional value per canonical field. -/
structure FinNums where
  current_assets : Option ℚ
  inventory : Option ℚ
  cash_and_cash_equivalents : Option ℚ
  current_liabilities : Option ℚ
  total_assets : Option ℚ
  total_equity : Option ℚ
  total_liabilities : Option ℚ
  revenue : Option ℚ
  cogs : Option ℚ
  gross_profit : Option ℚ
  operating_income : Option ℚ
  ebit : Option ℚ
  interest_expense : Option ℚ
  net_income : Option ℚ
  receivables : Option ℚ
  payables : Option ℚ

/-- `_extract_financial_numbers`: each canonical field is located with its
ordered keyword list. -/
def extractFinancialNumbers (text : String) : FinNums where
  current_assets := findAmount text
    ["total current assets", "current assets", "total current assets and loans",
     "currents assets"]
  inventory := findAmount text ["inventory", "stock", "inventories"]
  cash_and_cash_equivalents := findAmount text
    ["cash and cash equivalents", "cash & cash equivalents", "cash and bank balances",
     "cash in hand"]
  current_liabilities := findAmount text
    ["total current liabilities", "current liabilities", "liabilities- current",
     "current portion of"]
  total_assets := findAmount text
    ["total assets", "assets total", "total non-current and current assets"]
  total_equity := findAmount text
    ["total equity", "shareholders funds", "total equity and liabilities",
     "equity and liabilities", "total shareholders' funds"]
  total_liabilities := findAmount text ["total liabilities", "liabilities total"]
  revenue := findAmount text ["total revenue", "revenue", "net sales", "sales", "turnover"]
  cogs := findAmount text
    ["cost of goods sold", "cost of sales", "cost of materials", "direct expenses",
     "cost of revenue"]
  gross_profit := findAmount text ["gross profit", "gross margin"]
  operating_income := findAmount text
    ["operating profit", "operating income", "profit from operations"]
  ebit := findAmount text
    ["profit before finance costs and tax", "ebit", "earnings before interest and tax",
     "profit before interest and tax"]
  interest_expense := findAmount text ["finance costs", "interest expense", "interest paid"]
  net_income := findAmount text
    ["profit for the year", "net profit", "profit after tax", "net income"]
  receivables := findAmount text
    ["trade receivables", "receivables", "accounts receivable", "debtors"]
  payables := findAmount text
    ["trade payables", "payables", "accounts payable", "creditors"]

/-- Python's banker's rounding `round(q)` to an integer: nearest integer,
ties to the even one. -/
def pyRoundInt (q : ℚ) : ℤ :=
  if q - ⌊q⌋ < 1 / 2 then ⌊q⌋
  else if (1 : ℚ) / 2 < q - ⌊q⌋ then ⌊q⌋ + 1
  else if ⌊q⌋ % 2 = 0 then ⌊q⌋ else ⌊q⌋ + 1

/-- Python's `round(q, 4)`, idealized over exact rationals. -/
def pyRound4 (q : ℚ) : ℚ := (pyRoundInt (q * 10000) : ℚ) / 10000

/-- The rounding loop of `calculate_financial_ratios_from_text` applied to
one optional ratio. -/
def roundOpt (v : Option ℚ) : Option ℚ := v.map pyRound4

/-- The flat ratio dictionary returned by
`calculate_financial_ratios_from_text` in `be/ratio_smoke_test.py`
(the `be/financial_analyzer.py` variant computes the same values and
regroups them into categories). -/
structure SmokeRatios where
  current_ratio : Option ℚ
  quick_ratio : Option ℚ
  cash_ratio : Option ℚ
  gross_profit : Option ℚ
  operating_profit : Option ℚ
  gross_margin : Option ℚ
  operating_margin : Option ℚ
  net_margin : Option ℚ
  roa : Option ℚ
  roe : Option ℚ
  debt_ratio : Option ℚ
  debt_to_equity : Option ℚ
  interest_coverage : Option ℚ
  asset_turnover : Option ℚ
  inventory_turnover : Option ℚ
  receivables_turnover : Option ℚ
  payables_turnover : Option ℚ
  extracted : FinNums

/-- The ratio-assembly body of `calculate_financial_ratios_from_text`, after
the extraction step: safe divisions, the derived gross profit, and the
final rounding loop, which rounds every present ratio to four decimals
except the absolute `gross_profit`/`operating_profit` amounts. -/
def computeSmokeRatios (nums : FinNums) : SmokeRatios :=
  let current_ratio := safe_div nums.current_assets nums.current_liabilities
  let quick_assets : Option ℚ :=
    match nums.current_assets, nums.inventory with
    | some a, some i => some (a - i)
    | _, _ => none
  let quick_ratio := safe_div quick_assets nums.current_liabilities
  let cash_ratio := safe_div nums.cash_and_cash_equivalents nums.current_liabilities
  let gross_profit : Option ℚ :=
    match nums.gross_profit with
    | some g => some g
    | none =>
      match nums.revenue, nums.cogs with
      | some r, some c => some (r - c)
      | _, _ => none
  let operating_profit := nums.operating_income
  let gross_margin : Option ℚ :=
    match nums.revenue, gross_profit with
    | some r, some g => if r ≠ 0 then some (g / r) else none
    | _, _ => none
  { current_ratio := roundOpt current_ratio
    quick_ratio := roundOpt quick_ratio
    cash_ratio := roundOpt cash_ratio
    gross_profit := gross_profit
    operating_profit := operating_profit
    gross_margin := roundOpt gross_margin
    operating_margin := roundOpt (safe_div operating_profit nums.revenue)
    net_margin := roundOpt (safe_div nums.net_income nums.revenue)
    roa := roundOpt (safe_div nums.net_income nums.total_assets)
    roe := roundOpt (safe_div nums.net_income nums.total_equity)
    debt_ratio := roundOpt (safe_div nums.total_liabilities nums.total_assets)
    debt_to_equity := roundOpt (safe_div nums.total_liabilities nums.total_equity)
    interest_coverage :=
      roundOpt (safe_div (orFalsy nums.ebit nums.operating_income) nums.interest_expense)
    asset_turnover := roundOpt (safe_div nums.revenue nums.total_assets)
    inventory_turnover := roundOpt (safe_div nums.cogs nums.inventory)
    receivables_turnover := roundOpt (safe_div nums.revenue nums.receivables)
    payables_turnover := roundOpt (safe_div nums.cogs nums.payables)
    extracted := nums }

/-- `calculate_financial_ratios_from_text` (`be/ratio_smoke_test.py`):
extract the line items, then assemble the ratios. -/
def calculate_financial_ratios_from_text (text : String) : SmokeRatios :=
  computeSmokeRatios (extractFinancialNumbers text)

/-- The eight-line end-to-end scenario text of the spec (section 8). -/
def c1Text : String :=
  "Total current assets 1,000,000\nInventory 200,000\nTotal current liabilities 400,000\nTotal assets 2,000,000\nTotal equity 800,000\nTotal liabilities 1,200,000\nRevenue 1,500,000\nCost of goods sold 900,000"

/-- The line items the engine extracts from `c1Text` (established below in
the claim-1 theorem). -/
def c1Nums : FinNums :=
  ⟨some 1000000, some 200000, none, some 400000, some 2000000, some 800000,
   some 1200000, some 1500000, some 900000, none, none, none, none, none, none, none⟩

/-- One normalized table row of `be/app.py`'s page parser: lower-cased
description text and the ordered numeric cells. -/
structure NormalizedRow where
  particulars : String
  values : List ℚ

/-- Python `a or 0` on an optional number: the number when present and
truthy (non-zero), otherwise `0`. -/
def orZero (a : Option ℚ) : ℚ :=
  match a with
  | some q => if q = 0 then 0 else q
  | none => 0

/-- The note-index branch of `find_value` in `be/app.py`: on two or more
numeric cells, when the first is very small (a likely note index, `< 200`)
and the second is much larger (`> 500`) the second is taken, otherwise the
first; with fewer cells the last cell (or nothing) is taken. -/
def noteHeuristic (row : NormalizedRow) : Option ℚ :=
  match row.values with
  | v0 :: v1 :: _ => if v0 < 200 ∧ 500 < v1 then some v1 else some v0
  | _ => row.values.getLast?

/-- All keywords of the set occur in the particulars (`all(k in p ...)`). -/
def allKwsIn (keywords : List String) (p : List Char) : Bool :=
  keywords.all (fun k => hasSub k.data p)

/-- Some keyword of the set occurs in the particulars (`any(k in p ...)`). -/
def anyKwIn (keywords : List String) (p : List Char) : Bool :=
  keywords.any (fun k => hasSub k.data p)

/-- The row loop of `find_value` (`be/app.py`, inside
`calculate_financial_ratios`): an exact hit returns the last cell at once;
a full keyword hit overwrites the running best with the last cell; a
partial hit fills an empty best using the note-index branch. -/
def findValueGo (keywords : List String) (exact : Bool) :
    List NormalizedRow → Option ℚ → Option ℚ
  | [], best => best
  | row :: rest, best =>
    if exact then
      if keywords.contains row.particulars then row.values.getLast?
      else findValueGo keywords exact rest best
    else
      if allKwsIn keywords row.particulars.data then
        findValueGo keywords exact rest row.values.getLast?
      else if anyKwIn keywords row.particulars.data then
        if best = none then findValueGo keywords exact rest (noteHeuristic row)
        else findValueGo keywords exact rest best
      else findValueGo keywords exact rest best

/-- `find_value` from `be/app.py`. -/
def find_value (rows : List NormalizedRow) (keywords : List String)
    (exact : Bool) : Option ℚ :=
  findValueGo keywords exact rows none

/-- The balance-sheet fields touched by the "Derive missing values" block
of `calculate_financial_ratios` in `be/app.py`. -/
structure DerivedBS where
  total_assets : Option ℚ
  total_liabilities : Option ℚ
  current_liabilities : Option ℚ
  non_current_assets : Option ℚ

/-- The "Derive missing values" block of `calculate_financial_ratios`
(`be/app.py`), run in source order: liabilities from assets minus equity,
assets from liabilities plus equity (seeing the possibly derived
liabilities), current liabilities from total liabilities minus
`(non_current_liabilities or 0)` when current assets and total liabilities
are known, and non-current assets from total minus current assets. -/
def deriveMissingFields (total_assets current_assets non_current_assets
    total_liabilities current_liabilities non_current_liabilities
    equity : Option ℚ) : DerivedBS :=
  let tl1 : Option ℚ :=
    match total_liabilities, total_assets, equity with
    | none, some a, some e => some (a - e)
    | tl, _, _ => tl
  let ta1 : Option ℚ :=
    match total_assets, tl1, equity with
    | none, some l, some e => some (l + e)
    | ta, _, _ => ta
  let cl1 : Option ℚ :=
    match current_liabilities, current_assets, tl1 with
    | none, some _, some l => some (l - orZero non_current_liabilities)
    | cl, _, _ => cl
  let nca1 : Option ℚ :=
    match non_current_assets, ta1, current_assets with
    | none, some a, some c => some (a - c)
    | nca, _, _ => nca
  ⟨ta1, tl1, cl1, nca1⟩

/-- The liquidity ratios computed by `calculate_financial_ratios`
(`be/app.py`): a missing dictionary key is modelled as `none`. -/
structure AppLiquidity where
  current_ratio : Option ℚ
  quick_ratio : Option ℚ
  cash_ratio : Option ℚ

/-- The "Liquidity Ratios" block of `calculate_financial_ratios`
(`be/app.py`): the current and quick ratios require their operand fields
present, but the cash ratio is computed from `(cash or 0)` whenever current
assets and positive current liabilities are present, even with no extracted
cash. -/
def appLiquidityRatios (current_assets current_liabilities inventory
    cash : Option ℚ) : AppLiquidity :=
  let current_ratio : Option ℚ :=
    match current_assets, current_liabilities with
    | some ca, some cl => if 0 < cl then some (ca / cl) else none
    | _, _ => none
  let quick_ratio : Option ℚ :=
    match current_assets, inventory, current_liabilities with
    | some ca, some inv, some cl =>
      if 0 < cl then some ((ca - orZero (some inv)) / cl) else none
    | _, _, _ => none
  let cash_ratio : Option ℚ :=
    match current_assets, current_liabilities with
    | some _, some cl => if 0 < cl then some (orZero cash / cl) else none
    | _, _ => none
  ⟨current_ratio, quick_ratio, cash_ratio⟩

/-- `safe_div` from `be/mistral.py`'s `calculate_financial_ratios`: `None`
when the numerator is missing or the denominator is missing or zero,
otherwise the quotient rounded to four decimals. -/
def mistralSafeDiv (a b : Option ℚ) : Option ℚ :=
  match a, b with
  | none, _ => none
  | _, none => none
  | some x, some y => if y = 0 then none else some (pyRound4 (x / y))

/-- The `quick_ratio` of `be/mistral.py`'s `calculate_financial_ratios`:
`(cash_and_equivalents or 0) + (trade_receivables or 0)` over current
liabilities. -/
def mistralQuickRatio (cash receivables current_liabilities : Option ℚ) : Option ℚ :=
  mistralSafeDiv (some (orZero cash + orZero receivables)) current_liabilities

/-- The percentage normalization of `flatten_ratios` (`be/app.py`) on one
present value of the profitability section: a magnitude above one is taken
for a percentage and divided by 100, then rounded; anything else is only
rounded. -/
def normalizeProfitability (num : ℚ) : ℚ :=
  if 1 < |num| then pyRound4 (num / 100) else pyRound4 num

/-- The dynamic structures handed to `validate_balance_sheet_data`
(`be/app.py`): JSON-like nests of numbers, strings, `None`, lists and
dictionaries. -/
inductive BData where
  | null : BData
  | num : ℚ → BData
  | str : String → BData
  | arr : List BData → BData
  | obj : List (String × BData) → BData

/-- `try_parse_numeric` from `validate_balance_sheet_data`: numbers pass
through, strings go through `parse_number` and then a strip-non-numeric
fallback, everything else is not numeric. -/
def tryParseNumeric : BData → Option ℚ
  | .num q => some q
  | .str s =>
    match parse_number s with
    | some v => some v
    | none =>
      let cleaned := s.data.filter (fun c => c.isDigit || c = '.' || c = '-')
      if cleaned = [] ∨ cleaned = ['.'] then none else pyFloat cleaned
  | _ => none

/-- One value's contribution test in the walk: parses to a number strictly
above zero. -/
def isPosCounted (x : BData) : Bool :=
  match tryParseNumeric x with
  | some v => decide (0 < v)
  | none => false

mutual
/-- The recursive `walk` of `validate_balance_sheet_data`, counting into an
accumulator exactly as the source's `nonlocal numeric_count` does. -/
def walkCount : BData → ℕ → ℕ
  | .arr xs, n => walkList xs n
  | .obj kvs, n => walkPairs kvs n
  | _, n => n

/-- `walk` over the items of a list. -/
def walkList : List BData → ℕ → ℕ
  | [], n => n
  | x :: xs, n => walkList xs (if isPosCounted x then n + 1 else walkCount x n)

/-- `walk` over the values of a dictionary. -/
def walkPairs : List (String × BData) → ℕ → ℕ
  | [], n => n
  | (_, v) :: kvs, n => walkPairs kvs (if isPosCounted v then n + 1 else walkCount v n)
end

/-- Python truth-value test on the structures `validate_balance_sheet_data`
receives: `None`, `0`, `""`, `[]` and `{}` are falsy. -/
def bFalsy : BData → Bool
  | .null => true
  | .num q => decide (q = 0)
  | .str s => s = ""
  | .arr xs => xs.isEmpty
  | .obj kvs => kvs.isEmpty

/-- The one-level flattening of a list input at the top of
`validate_balance_sheet_data` (`flat_data`). -/
def flattenItems : List BData → List BData
  | [] => []
  | .arr ys :: rest => ys ++ flattenItems rest
  | x :: rest => x :: flattenItems rest

/-- `flat_data`: a list input is flattened one level, anything else is
wrapped into a singleton list. -/
def flattenTop : BData → List BData
  | .arr xs => flattenItems xs
  | d => [d]

/-- `validate_balance_sheet_data` from `be/app.py`: falsy input fails, and
otherwise the walk must count at least three positive numeric values. -/
def validate_balance_sheet_data (balance_data : BData) : Bool :=
  if bFalsy balance_data then false
  else decide (3 ≤ walkList (flattenTop balance_data) 0)

mutual
/-- Specification-side count of the positive numeric values the walk
visits, written as a structural sum instead of an accumulator. -/
def countPos : BData → ℕ
  | .arr xs => countPosList xs
  | .obj kvs => countPosPairs kvs
  | _ => 0

/-- Structural positive count over list items. -/
def countPosList : List BData → ℕ
  | [] => 0
  | x :: xs => (if isPosCounted x then 1 else countPos x) + countPosList xs

/-- Structural positive count over dictionary values. -/
def countPosPairs : List (String × BData) → ℕ
  | [] => 0
  | (_, v) :: kvs => (if isPosCounted v then 1 else countPos v) + countPosPairs kvs
end

mutual
/-- The positive numeric values the walk counts, collected in visit order. -/
def posVals : BData → List ℚ
  | .arr xs => posValsList xs
  | .obj kvs => posValsPairs kvs
  | _ => []

/-- Collected positive values over list items. -/
def posValsList : List BData → List ℚ
  | [] => []
  | x :: xs =>
    (match tryParseNumeric x with
     | some v => if 0 < v then [v] else posVals x
     | none => posVals x) ++ posValsList xs

/-- Collected positive values over dictionary values. -/
def posValsPairs : List (String × BData) → List ℚ
  | [] => []
  | (_, v) :: kvs =>
    (match tryParseNumeric v with
     | some w => if 0 < w then [w] else posVals v
     | none => posVals v) ++ posValsPairs kvs
end

/-- A three-item list input whose positive numeric values are all equal. -/
def c7Input : BData := .arr [.num 5, .num 5, .num 5]

theorem pyRoundInt_intCast (m : ℤ) : pyRoundInt (m : ℚ) = m := by
  simp [pyRoundInt]

theorem pyRound4_eq_self (q : ℚ) (m : ℤ) (h : q * 10000 = (m : ℚ)) : pyRound4 q = q := by
  rw [pyRound4, h, pyRoundInt_intCast, ← h]
  ring

theorem pyRound4_idem (q : ℚ) : pyRound4 (pyRound4 q) = pyRound4 q := by
  apply pyRound4_eq_self _ (pyRoundInt (q * 10000))
  rw [pyRound4]
  ring

theorem pyRoundInt_bounds (t : ℚ) (hlo : -10000 ≤ t) (hhi : t ≤ 10000) :
    -10000 ≤ pyRoundInt t ∧ pyRoundInt t ≤ 10000 := by
  have hfl : (⌊t⌋ : ℚ) ≤ t := Int.floor_le t
  have hfl2 : t < ⌊t⌋ + 1 := Int.lt_floor_add_one t
  have hlo' : (-10000 : ℤ) ≤ ⌊t⌋ := by
    have := Int.le_floor.mpr (by exact_mod_cast hlo : ((-10000 : ℤ) : ℚ) ≤ t)
    exact this
  have hhi' : ⌊t⌋ ≤ 10000 := by
    have : (⌊t⌋ : ℚ) ≤ 10000 := le_trans hfl hhi
    exact_mod_cast this
  unfold pyRoundInt
  split_ifs with h1 h2 h3
  · exact ⟨hlo', hhi'⟩
  · constructor
    · omega
    · have ht : (⌊t⌋ : ℚ) < t := by linarith
      have : (⌊t⌋ : ℚ) < 10000 := lt_of_lt_of_le ht hhi
      have : ⌊t⌋ < 10000 := by exact_mod_cast this
      omega
  · exact ⟨hlo', hhi'⟩
  · constructor
    · omega
    · have ht : (⌊t⌋ : ℚ) < t := by linarith
      have : (⌊t⌋ : ℚ) < 10000 := lt_of_lt_of_le ht hhi
      have : ⌊t⌋ < 10000 := by exact_mod_cast this
      omega

theorem abs_pyRound4_le_one (q : ℚ) (h : |q| ≤ 1) : |pyRound4 q| ≤ 1 := by
  rw [abs_le] at h
  have hb := pyRoundInt_bounds (q * 10000) (by linarith) (by linarith)
  rw [pyRound4, abs_le]
  have h1 : ((-10000 : ℤ) : ℚ) ≤ (pyRoundInt (q * 10000) : ℚ) := by exact_mod_cast hb.1
  have h2 : ((pyRoundInt (q * 10000)) : ℚ) ≤ ((10000 : ℤ) : ℚ) := by exact_mod_cast hb.2
  push_cast at h1 h2
  constructor
  · rw [le_div_iff₀ (by norm_num : (0 : ℚ) < 10000)]
    linarith
  · rw [div_le_one (by norm_num : (0 : ℚ) < 10000)]
    linarith

/-- Helper for the claim-1 proof: on the spec's eight-line scenario text the
extractor finds exactly the eight listed line items and nothing else. -/
theorem c1_extract : extractFinancialNumbers c1Text = c1Nums := by
  have h1 : findAmountP c1Text
      ["total current assets", "current assets", "total current assets and loans",
       "currents assets"] = some ⟨false, 1000000, 0, 0⟩ := by decide
  have h2 : findAmountP c1Text ["inventory", "stock", "inventories"]
      = some ⟨false, 200000, 0, 0⟩ := by decide
  have h3 : findAmountP c1Text
      ["cash and cash equivalents", "cash & cash equivalents", "cash and bank balances",
       "cash in hand"] = none := by decide
  have h4 : findAmountP c1Text
      ["total current liabilities", "current liabilities", "liabilities- current",
       "current portion of"] = some ⟨false, 400000, 0, 0⟩ := by decide
  have h5 : findAmountP c1Text
      ["total assets", "assets total", "total non-current and current assets"]
      = some ⟨false, 2000000, 0, 0⟩ := by decide
  have h6 : findAmountP c1Text
      ["total equity", "shareholders funds", "total equity and liabilities",
       "equity and liabilities", "total shareholders' funds"]
      = some ⟨false, 800000, 0, 0⟩ := by decide
  have h7 : findAmountP c1Text ["total liabilities", "liabilities total"]
      = some ⟨false, 1200000, 0, 0⟩ := by decide
  have h8 : findAmountP c1Text ["total revenue", "revenue", "net sales", "sales", "turnover"]
      = some ⟨false, 1500000, 0, 0⟩ := by decide
  have h9 : findAmountP c1Text
      ["cost of goods sold", "cost of sales", "cost of materials", "direct expenses",
       "cost of revenue"] = some ⟨false, 900000, 0, 0⟩ := by decide
  have h10 : findAmountP c1Text ["gross profit", "gross margin"] = none := by decide
  have h11 : findAmountP c1Text ["operating profit", "operating income", "profit from operations"]
      = none := by decide
  have h12 : findAmountP c1Text
      ["profit before finance costs and tax", "ebit", "earnings before interest and tax",
       "profit before interest and tax"] = none := by decide
  have h13 : findAmountP c1Text ["finance costs", "interest expense", "interest paid"]
      = none := by decide
  have h14 : findAmountP c1Text
      ["profit for the year", "net profit", "profit after tax", "net income"] = none := by decide
  have h15 : findAmountP c1Text
      ["trade receivables", "receivables", "accounts receivable", "debtors"] = none := by decide
  have h16 : findAmountP c1Text
      ["trade payables", "payables", "accounts payable", "creditors"] = none := by decide
  rw [extractFinancialNumbers, c1Nums]
  rw [findAmount, h1, findAmount, h2, findAmount, h3, findAmount, h4, findAmount, h5,
      findAmount, h6, findAmount, h7, findAmount, h8, findAmount, h9, findAmount, h10,
      findAmount, h11, findAmount, h12, findAmount, h13, findAmount, h14, findAmount, h15,
      findAmount, h16]
  simp [PyFloat.val]

/-- Claim C1: on the eight-line scenario text (one item per line),
`calculate_financial_ratios_from_text` returns `current_ratio = 2.5`,
`quick_ratio = 2.0`, `debt_ratio = 0.6`, `debt_to_equity = 1.5` and
`gross_margin = 0.4`. -/
theorem C1_end_to_end :
    (calculate_financial_ratios_from_text c1Text).current_ratio = some (5 / 2 : ℚ) ∧
    (calculate_financial_ratios_from_text c1Text).quick_ratio = some (2 : ℚ) ∧
    (calculate_financial_ratios_from_text c1Text).debt_ratio = some (3 / 5 : ℚ) ∧
    (calculate_financial_ratios_from_text c1Text).debt_to_equity = some (3 / 2 : ℚ) ∧
    (calculate_financial_ratios_from_text c1Text).gross_margin = some (2 / 5 : ℚ) := by
  have hr : calculate_financial_ratios_from_text c1Text = computeSmokeRatios c1Nums := by
    rw [calculate_financial_ratios_from_text, c1_extract]
  rw [hr]
  have d1 : safe_div (some (1000000 : ℚ)) (some 400000) = some (5 / 2) := by
    rw [safe_div]; norm_num
  have d2 : safe_div (some (800000 : ℚ)) (some 400000) = some 2 := by
    rw [safe_div]; norm_num
  have d3 : safe_div (some (1200000 : ℚ)) (some 2000000) = some (3 / 5) := by
    rw [safe_div]; norm_num
  have d4 : safe_div (some (1200000 : ℚ)) (some 800000) = some (3 / 2) := by
    rw [safe_div]; norm_num
  refine ⟨?_, ?_, ?_, ?_, ?_⟩
  · show roundOpt (safe_div c1Nums.current_assets c1Nums.current_liabilities) = some (5 / 2)
    rw [show c1Nums.current_assets = some 1000000 from rfl,
        show c1Nums.current_liabilities = some 400000 from rfl, d1, roundOpt]
    simp [pyRound4_eq_self (5 / 2 : ℚ) 25000 (by norm_num)]
  · show roundOpt (safe_div (some (1000000 - 200000 : ℚ)) c1Nums.current_liabilities) = some 2
    rw [show ((1000000 : ℚ) - 200000) = 800000 by norm_num,
        show c1Nums.current_liabilities = some 400000 from rfl, d2, roundOpt]
    simp [pyRound4_eq_self (2 : ℚ) 20000 (by norm_num)]
  · show roundOpt (safe_div c1Nums.total_liabilities c1Nums.total_assets) = some (3 / 5)
    rw [show c1Nums.total_liabilities = some 1200000 from rfl,
        show c1Nums.total_assets = some 2000000 from rfl, d3, roundOpt]
    simp [pyRound4_eq_self (3 / 5 : ℚ) 6000 (by norm_num)]
  · show roundOpt (safe_div c1Nums.total_liabilities c1Nums.total_equity) = some (3 / 2)
    rw [show c1Nums.total_liabilities = some 1200000 from rfl,
        show c1Nums.total_equity = some 800000 from rfl, d4, roundOpt]
    simp [pyRound4_eq_self (3 / 2 : ℚ) 15000 (by norm_num)]
  · show roundOpt (some ((1500000 - 900000 : ℚ) / 1500000)) = some (2 / 5)
    rw [show ((1500000 : ℚ) - 900000) / 1500000 = 2 / 5 by norm_num, roundOpt]
    simp [pyRound4_eq_self (2 / 5 : ℚ) 4000 (by norm_num)]

/-- Claim C2: for every pair of optional rationals, `safe_div a b` is `None`
exactly when `a` is `None`, `b` is `None` or `b` is zero, and otherwise it
is exactly `a / b`. -/
theorem C2_safe_div_contract (a b : Option ℚ) :
    (safe_div a b = none ↔ a = none ∨ b = none ∨ b = some 0) ∧
    (∀ x y : ℚ, a = some x → b = some y → y ≠ 0 → safe_div a b = some (x / y)) := by
  constructor
  · rcases a with - | x <;> rcases b with - | y
    · simp [safe_div]
    · simp [safe_div]
    · simp [safe_div]
    · by_cases hy : y = 0 <;> simp [safe_div, hy]
  · intro x y hx hy hne
    subst hx; subst hy
    simp [safe_div, hne]

/-- Claim C3, counterexample: on the line `"Cash 4 200000 150000"` with a
cash keyword, neither cited locator returns 200000: the regex locator
`_find_amount` returns the first numeric token 4, and `find_value` on the
corresponding normalized row returns the last cell 150000. -/
theorem C3_counterexample :
    findAmount "Cash 4 200000 150000" ["cash"] = some (4 : ℚ) ∧
    find_value [⟨"cash", [4, 200000, 150000]⟩] ["cash"] false = some (150000 : ℚ) := by
  constructor
  · have h : findAmountP "Cash 4 200000 150000" ["cash"] = some ⟨false, 4, 0, 0⟩ := by decide
    rw [findAmount, h]; simp [PyFloat.val]
  · decide

/-- Claim C3, amended: `_find_amount` returns the first numeric token (4);
`find_value` returns the last cell (150000) on a full keyword match, and
applies the skip-note-index second-token rule (yielding 200000) only on a
partial keyword match — some but not all keywords present — with no
earlier best value. -/
theorem C3_locator_behaviour :
    findAmount "Cash 4 200000 150000" ["cash"] = some (4 : ℚ) ∧
    find_value [⟨"cash", [4, 200000, 150000]⟩] ["cash"] false = some (150000 : ℚ) ∧
    find_value [⟨"cash balance", [4, 200000, 150000]⟩] ["cash", "equivalents"] false
      = some (200000 : ℚ) := by
  refine ⟨?_, by decide, by decide⟩
  have h : findAmountP "Cash 4 200000 150000" ["cash"] = some ⟨false, 4, 0, 0⟩ := by decide
  rw [findAmount, h]; simp [PyFloat.val]

/-- Claim C4, counterexample: `parse_number` (`be/app.py`) does not apply
the lakh/crore scale: it returns the bare mantissa 1.5 for
`"1.5 crore"` (not 1.5e7) and 2 for `"2 lakhs"` (not 2e5). -/
theorem C4_counterexample :
    parse_number "1.5 crore" = some (3 / 2 : ℚ) ∧
    parse_number "1.5 crore" ≠ some (15000000 : ℚ) ∧
    parse_number "2 lakhs" = some (2 : ℚ) ∧
    parse_number "2 lakhs" ≠ some (200000 : ℚ) := by
  have h1 : parse_numberP "1.5 crore" = some (false, ⟨false, 1, 5, 1⟩) := by decide
  have h2 : parse_numberP "2 lakhs" = some (false, ⟨false, 2, 0, 0⟩) := by decide
  have e1 : parse_number "1.5 crore" = some (3 / 2 : ℚ) := by
    rw [parse_number, h1]; simp [PyFloat.val]; norm_num
  have e2 : parse_number "2 lakhs" = some (2 : ℚ) := by
    rw [parse_number, h2]; simp [PyFloat.val]
  refine ⟨e1, ?_, e2, ?_⟩
  · rw [e1]; simp only [ne_eq, Option.some.injEq]; norm_num
  · rw [e2]; simp only [ne_eq, Option.some.injEq]; norm_num

/-- Claim C4, amended: the scale-suffix rule holds for mistral.py's
`_parse_number_token`, which multiplies the mantissa by 1e5 for lakh(s) and
1e7 for crore(s)/cr, while app.py's `parse_number` ignores the unit words
and returns the bare mantissa. -/
theorem C4_scale_suffix :
    parseNumberToken "1.5 crore" = .ok (some (15000000 : ℚ)) ∧
    parseNumberToken "2 lakhs" = .ok (some (200000 : ℚ)) ∧
    parse_number "1.5 crore" = some (3 / 2 : ℚ) ∧
    parse_number "2 lakhs" = some (2 : ℚ) := by
  have h1 : parseNumberTokenP "1.5 crore" = .ok (some (false, ⟨false, 1, 5, 1⟩, 10000000)) := by
    decide
  have h2 : parseNumberTokenP "2 lakhs" = .ok (some (false, ⟨false, 2, 0, 0⟩, 100000)) := by
    decide
  have h3 : parse_numberP "1.5 crore" = some (false, ⟨false, 1, 5, 1⟩) := by decide
  have h4 : parse_numberP "2 lakhs" = some (false, ⟨false, 2, 0, 0⟩) := by decide
  refine ⟨?_, ?_, ?_, ?_⟩
  · rw [parseNumberToken, h1]; simp [PyFloat.val, Except.map]; norm_num
  · rw [parseNumberToken, h2]; simp [PyFloat.val, Except.map]; norm_num
  · rw [parse_number, h3]; simp [PyFloat.val]; norm_num
  · rw [parse_number, h4]; simp [PyFloat.val]

/-- Claim C5: `parse_number` never raises (it is a total function into an
option): a parenthesised value is negative, `"(1,234.56)"` gives
`-1234.56`; the empty string, the dashes and the na/nil tokens give `None`;
and every string whose cleaned form `float` cannot convert gives `None`. -/
theorem C5_parse_number_total :
    parse_number "(1,234.56)" = some (-(123456 / 100 : ℚ)) ∧
    parse_number "" = none ∧
    parse_number "-" = none ∧
    parse_number "—" = none ∧
    parse_number "na" = none ∧
    parse_number "nil" = none ∧
    (∀ s : String,
      pyFloatP (parse_number_cleaned (lowerChars (stripChars pyWs s.data))) = none →
      parse_number s = none) := by
  refine ⟨?_, by decide, by decide, by decide, by decide, by decide, ?_⟩
  · have h : parse_numberP "(1,234.56)" = some (true, ⟨false, 1234, 56, 2⟩) := by decide
    rw [parse_number, h]; simp [PyFloat.val]; norm_num
  · intro s h
    rw [parse_number, parse_numberP]
    split_ifs with h1
    · rfl
    · simp [h]

/-- Claim C6, counterexample: app.py's liquidity block computes
`cash_ratio = (cash or 0) / current_liabilities` even when no cash was
extracted, fabricating the value 0 from an absent operand, and mistral.py's
`quick_ratio` substitutes 0 for both absent components. -/
theorem C6_counterexample :
    (appLiquidityRatios (some 1000000) (some 400000) (some 200000) none).cash_ratio
      = some (0 : ℚ) ∧
    mistralQuickRatio none none (some 400000) = some (0 : ℚ) := by
  constructor
  · show (if 0 < (400000 : ℚ) then some (orZero none / 400000) else none) = some 0
    rw [if_pos (by norm_num : (0 : ℚ) < 400000)]
    simp [orZero]
  · rw [mistralQuickRatio, mistralSafeDiv]
    rw [if_neg (by norm_num : ¬(400000 : ℚ) = 0)]
    rw [show (orZero none + orZero none) / (400000 : ℚ) = 0 by simp [orZero]]
    rw [pyRound4_eq_self (0 : ℚ) 0 (by norm_num)]

/-- Claim C6, amended: the current ratio and app.py's quick ratio are
computed only when their operand fields are present, but app.py's cash
ratio is computed as `(cash or 0) / current_liabilities` whenever current
assets and positive current liabilities are present — a 0 is fabricated for
absent cash — and mistral.py's quick ratio likewise treats absent cash and
receivables as 0. -/
theorem C6_safe_division_amended (ca cl inv cash : Option ℚ) :
    ((appLiquidityRatios ca cl inv cash).current_ratio ≠ none → ca ≠ none ∧ cl ≠ none) ∧
    ((appLiquidityRatios ca cl inv cash).quick_ratio ≠ none →
      ca ≠ none ∧ inv ≠ none ∧ cl ≠ none) ∧
    (∀ a l : ℚ, ca = some a → cl = some l → 0 < l →
      (appLiquidityRatios ca cl inv cash).cash_ratio = some (orZero cash / l)) ∧
    (∀ l : ℚ, 0 < l → mistralQuickRatio none none (some l) = some 0) := by
  refine ⟨?_, ?_, ?_, ?_⟩
  · rcases ca with - | a <;> rcases cl with - | l
    · exact fun h => absurd rfl h
    · exact fun h => absurd rfl h
    · exact fun h => absurd rfl h
    · exact fun _ => ⟨Option.some_ne_none a, Option.some_ne_none l⟩
  · rcases ca with - | a <;> rcases inv with - | i <;> rcases cl with - | l
    · exact fun h => absurd rfl h
    · exact fun h => absurd rfl h
    · exact fun h => absurd rfl h
    · exact fun h => absurd rfl h
    · exact fun h => absurd rfl h
    · exact fun h => absurd rfl h
    · exact fun h => absurd rfl h
    · exact fun _ => ⟨Option.some_ne_none a, Option.some_ne_none i, Option.some_ne_none l⟩
  · intro a l ha hl hp
    subst ha; subst hl
    show (if 0 < l then some (orZero cash / l) else none) = some (orZero cash / l)
    rw [if_pos hp]
  · intro l hp
    rw [mistralQuickRatio, mistralSafeDiv]
    rw [if_neg (ne_of_gt hp)]
    rw [show (orZero none + orZero none) / l = 0 by simp [orZero]]
    rw [pyRound4_eq_self (0 : ℚ) 0 (by norm_num)]

mutual
/-- The walk's accumulator form agrees with the structural count. -/
theorem walkCount_eq : ∀ (x : BData) (n : ℕ), walkCount x n = n + countPos x
  | .null, n => by simp [walkCount, countPos]
  | .num q, n => by simp [walkCount, countPos]
  | .str s, n => by simp [walkCount, countPos]
  | .arr xs, n => by rw [walkCount, countPos, walkList_eq xs n]
  | .obj kvs, n => by rw [walkCount, countPos, walkPairs_eq kvs n]

/-- List form of `walkCount_eq`. -/
theorem walkList_eq : ∀ (xs : List BData) (n : ℕ), walkList xs n = n + countPosList xs
  | [], n => by simp [walkList, countPosList]
  | x :: xs, n => by
    rw [walkList, countPosList]
    by_cases h : isPosCounted x
    · rw [if_pos h, if_pos h, walkList_eq xs (n + 1)]
      omega
    · rw [if_neg h, if_neg h, walkList_eq xs (walkCount x n), walkCount_eq x n]
      omega

/-- Dictionary form of `walkCount_eq`. -/
theorem walkPairs_eq : ∀ (kvs : List (String × BData)) (n : ℕ),
    walkPairs kvs n = n + countPosPairs kvs
  | [], n => by simp [walkPairs, countPosPairs]
  | (k, v) :: kvs, n => by
    rw [walkPairs, countPosPairs]
    by_cases h : isPosCounted v
    · rw [if_pos h, if_pos h, walkPairs_eq kvs (n + 1)]
      omega
    · rw [if_neg h, if_neg h, walkPairs_eq kvs (walkCount v n), walkCount_eq v n]
      omega
end

/-- Claim C7, amended: the validation gate returns true exactly when the
input is truthy and the recursive walk counts at least three positive
numeric values — occurrences, repeated values counted separately, not
distinct values. -/
theorem C7_validation_gate (d : BData) :
    validate_balance_sheet_data d = true ↔
      bFalsy d = false ∧ 3 ≤ countPosList (flattenTop d) := by
  rw [validate_balance_sheet_data]
  split_ifs with h
  · simp [h]
  · rw [walkList_eq (flattenTop d) 0]
    simp [Bool.not_eq_true] at h
    simp [h]

/-- Claim C7, counterexample: the gate accepts a list of three equal
positive values — three occurrences but a single distinct positive value —
so the gate does not require three distinct positives. -/
theorem C7_counterexample :
    validate_balance_sheet_data c7Input = true ∧
    (posValsList (flattenTop c7Input)).dedup.length = 1 := by
  have hpos : isPosCounted (.num 5) = true := by
    rw [isPosCounted]
    show decide ((0 : ℚ) < 5) = true
    norm_num
  have hflat : flattenTop c7Input = [BData.num 5, .num 5, .num 5] := rfl
  have hcount : countPosList [BData.num 5, .num 5, .num 5] = 3 := by
    rw [countPosList, countPosList, countPosList, countPosList, if_pos hpos]
  constructor
  · rw [validate_balance_sheet_data,
        if_neg (by decide : ¬bFalsy c7Input = true), hflat,
        walkList_eq [BData.num 5, .num 5, .num 5] 0, hcount]
    decide
  · have h5 : tryParseNumeric (BData.num 5) = some 5 := rfl
    have hvals : posValsList [BData.num 5, .num 5, .num 5] = [5, 5, 5] := by
      rw [posValsList, posValsList, posValsList, posValsList]
      simp only [h5]
      rw [if_pos (by norm_num : (0 : ℚ) < 5)]
      rfl
    rw [hflat, hvals]
    rw [List.dedup_cons_of_mem (by simp), List.dedup_cons_of_mem (by simp)]
    rfl

/-- Claim C8, counterexample: the current-liabilities fallback fires with
unknown non-current liabilities (treating them as 0) as soon as current
assets and total liabilities are known, and conversely does not fire when
total and non-current liabilities are known but current assets are not. -/
theorem C8_counterexample :
    (deriveMissingFields (some 2000) (some 300) none (some 1000) none none
        none).current_liabilities = some (1000 : ℚ) ∧
    (deriveMissingFields (some 2000) none none (some 1000) none (some 400)
        none).current_liabilities = none := by
  constructor
  · show some ((1000 : ℚ) - orZero none) = some 1000
    simp [orZero]
  · rfl

/-- Claim C8, amended: a fallback never overwrites a present field;
`total_liabilities = total_assets - equity` and
`total_assets = total_liabilities + equity` fire exactly when both their
operands are available; but `current_liabilities` is derived as
`total_liabilities - (non_current_liabilities or 0)` whenever current
assets and (possibly derived) total liabilities are known — non-current
liabilities need not be known and an absent one counts as 0 — and
`non_current_assets = total_assets - current_assets` uses the possibly
derived total assets. -/
theorem C8_derivation_rules (ta ca nca tl cl ncl eq : Option ℚ) :
    (∀ x : ℚ, tl = some x →
      (deriveMissingFields ta ca nca tl cl ncl eq).total_liabilities = some x) ∧
    (∀ a e : ℚ, tl = none → ta = some a → eq = some e →
      (deriveMissingFields ta ca nca tl cl ncl eq).total_liabilities = some (a - e)) ∧
    (∀ x : ℚ, ta = some x →
      (deriveMissingFields ta ca nca tl cl ncl eq).total_assets = some x) ∧
    (∀ l e : ℚ, ta = none →
      (deriveMissingFields ta ca nca tl cl ncl eq).total_liabilities = some l →
      eq = some e →
      (deriveMissingFields ta ca nca tl cl ncl eq).total_assets = some (l + e)) ∧
    (∀ x : ℚ, cl = some x →
      (deriveMissingFields ta ca nca tl cl ncl eq).current_liabilities = some x) ∧
    (∀ c l : ℚ, cl = none → ca = some c →
      (deriveMissingFields ta ca nca tl cl ncl eq).total_liabilities = some l →
      (deriveMissingFields ta ca nca tl cl ncl eq).current_liabilities
        = some (l - orZero ncl)) ∧
    (cl = none → ca = none →
      (deriveMissingFields ta ca nca tl cl ncl eq).current_liabilities = none) ∧
    (∀ x : ℚ, nca = some x →
      (deriveMissingFields ta ca nca tl cl ncl eq).non_current_assets = some x) ∧
    (∀ a c : ℚ, nca = none →
      (deriveMissingFields ta ca nca tl cl ncl eq).total_assets = some a →
      ca = some c →
      (deriveMissingFields ta ca nca tl cl ncl eq).non_current_assets = some (a - c)) := by
  refine ⟨?_, ?_, ?_, ?_, ?_, ?_, ?_, ?_, ?_⟩
  · intro x h; subst h; rfl
  · intro a e h1 h2 h3; subst h1; subst h2; subst h3; rfl
  · intro x h; subst h; rfl
  · intro l e hta htl heq2
    subst hta; subst heq2
    rcases tl with - | x
    · exact Option.noConfusion (htl : (none : Option ℚ) = some l)
    · have hx : x = l := Option.some.inj htl
      show some (x + e) = some (l + e)
      rw [hx]
  · intro x h; subst h; rfl
  · intro c l hcl hca htl
    subst hcl; subst hca
    rcases tl with - | x
    · rcases ta with - | a2
      · exact Option.noConfusion (htl : (none : Option ℚ) = some l)
      · rcases eq with - | e2
        · exact Option.noConfusion (htl : (none : Option ℚ) = some l)
        · have hx : a2 - e2 = l := Option.some.inj htl
          show some ((a2 - e2) - orZero ncl) = some (l - orZero ncl)
          rw [hx]
    · have hx : x = l := Option.some.inj htl
      show some (x - orZero ncl) = some (l - orZero ncl)
      rw [hx]
  · intro h1 h2; subst h1; subst h2; rfl
  · intro x h; subst h; rfl
  · intro a c hnca hta hca
    subst hnca; subst hca
    rcases ta with - | a0
    · rcases eq with - | e0
      · rcases tl with - | x
        · exact Option.noConfusion (hta : (none : Option ℚ) = some a)
        · exact Option.noConfusion (hta : (none : Option ℚ) = some a)
      · rcases tl with - | x
        · exact Option.noConfusion (hta : (none : Option ℚ) = some a)
        · have hx : x + e0 = a := Option.some.inj hta
          show some ((x + e0) - c) = some (a - c)
          rw [hx]
    · have hx : a0 = a := Option.some.inj hta
      show some (a0 - c) = some (a - c)
      rw [hx]

/-- Claim C9, counterexample: the percentage normalization is not
idempotent on all values: 250 normalizes to 2.5, and normalizing 2.5 again
divides once more, giving 0.025. -/
theorem C9_counterexample :
    normalizeProfitability 250 = 5 / 2 ∧
    normalizeProfitability (normalizeProfitability 250) = 1 / 40 ∧
    ((1 / 40 : ℚ) ≠ 5 / 2) := by
  have e1 : normalizeProfitability 250 = 5 / 2 := by
    rw [normalizeProfitability,
        if_pos (by rw [abs_of_pos (by norm_num : (0 : ℚ) < 250)]; norm_num),
        show (250 : ℚ) / 100 = 5 / 2 by norm_num,
        pyRound4_eq_self (5 / 2 : ℚ) 25000 (by norm_num)]
  have e2 : normalizeProfitability (5 / 2 : ℚ) = 1 / 40 := by
    rw [normalizeProfitability,
        if_pos (by rw [abs_of_pos (by norm_num : (0 : ℚ) < 5 / 2)]; norm_num),
        show (5 / 2 : ℚ) / 100 = 1 / 40 by norm_num,
        pyRound4_eq_self (1 / 40 : ℚ) 250 (by norm_num)]
  exact ⟨e1, by rw [e1]; exact e2, by norm_num⟩

/-- Claim C9, amended: the normalization step is idempotent exactly on the
already-normalized range: for every value of magnitude at most one,
normalizing twice equals normalizing once. -/
theorem C9_normalization_idem (v : ℚ) (h : |v| ≤ 1) :
    normalizeProfitability (normalizeProfitability v) = normalizeProfitability v := by
  have h1 : normalizeProfitability v = pyRound4 v := by
    rw [normalizeProfitability, if_neg (not_lt.mpr h)]
  rw [h1]
  have h2 : |pyRound4 v| ≤ 1 := abs_pyRound4_le_one v h
  rw [normalizeProfitability, if_neg (not_lt.mpr h2), pyRound4_idem]

/-- Claim C9, witness: the idempotence theorem applied at the concrete
already-normalized value 0.4. -/
theorem C9_normalization_idem_witness :
    |(2 / 5 : ℚ)| ≤ 1 ∧
    normalizeProfitability (normalizeProfitability (2 / 5)) = normalizeProfitability (2 / 5) := by
  have habs : |(2 / 5 : ℚ)| ≤ 1 := by
    rw [abs_of_pos (by norm_num : (0 : ℚ) < 2 / 5)]; norm_num
  exact ⟨habs, C9_normalization_idem (2 / 5) habs⟩

/-- Claim C10: in both copies of the line-item locator the token-cleaning
substitution removes every full-stop character, so a matched value with a
decimal point has the point deleted: on `"Total assets 10,532.81"` the
locator returns 1053281, not 10532.81. -/
theorem C10_decimal_point_dropped :
    (∀ raw : List Char, (cleanToken raw).all (fun c => !(c = '.')) = true) ∧
    findAmount "Total assets 10,532.81" ["total assets"] = some (1053281 : ℚ) := by
  constructor
  · intro raw
    rw [List.all_eq_true]
    intro c hc
    rw [cleanToken, List.mem_filter] at hc
    have hpc := hc.2
    by_cases h : c = '.'
    · subst h; simp [pyWs] at hpc
    · simp [h]
  · have h : findAmountP "Total assets 10,532.81" ["total assets"] = some ⟨false, 1053281, 0, 0⟩ := by
      decide
    rw [findAmount, h]; simp [PyFloat.val]
